import Mathlib

/-!
Shallow embedding of `src/cache/mongodb.rs` (the MongoDB storage backend of
sccache) together with the external contracts it relies on, and proofs of the
specification claims about it.

The embedding has three layers:

* a sequential functional model of the backend (`World`, `getCollectionGuard`,
  `MongoDBCache.get`, `MongoDBCache.put`, ...), used for the functional
  claims;
* an interleaving small-step model of `get_collection` for two concurrent
  callers (`Conc` namespace), used for the concurrency claims about the
  lazily initialized shared connection slot;
* a pointer-level model of `#[derive(Clone)]` on the backend struct
  (`Ptr` namespace), where the `Arc<RwLock<Option<Collection>>>` field is an
  address into a shared store, used for the clone-sharing claim.

External collaborators (the MongoDB driver's `find_one`/`insert_one`, and the
repository's `CacheRead`/`CacheWrite` blob serializer, whose sources are not
part of this file's source tree) are modelled from the specification's
description of their contracts; those definitions carry a
`Modelled from the spec:` doc comment.
-/

namespace Sccache

/-- BSON binary subtypes; the backend only ever uses `Generic`
(`BinarySubtype::Generic` in the source). -/
inductive BinarySubtype
  | generic
  deriving DecidableEq

/-- `mongodb::bson::Binary`: a binary blob with a subtype tag. -/
structure Binary where
  subtype : BinarySubtype
  bytes : List Nat
  deriving DecidableEq

/-- The BSON values that can appear in a stored document in this development:
strings and binary blobs (the two field types of `CacheEntry`).  A document
with any other shape in a field is represented by using the wrong constructor
for that field. -/
inductive BsonValue
  | str (s : String)
  | bin (b : Binary)
  deriving DecidableEq

/-- A BSON document: an ordered association list of named fields. -/
abbrev Document := List (String × BsonValue)

/-- Field lookup in a document (first field with the given name). -/
def getField (d : Document) (name : String) : Option BsonValue :=
  (d.find? (fun p => p.1 = name)).map Prod.snd

/-- The record struct stored into MongoDB (`struct CacheEntry` in the
source): a key and a binary payload. -/
structure CacheEntry where
  key : String
  cache : Binary
  deriving DecidableEq

/-- The error kinds the backend surfaces (the source uses `anyhow` contexts;
we tag each `context(...)` site with a distinct kind).  `unwrapPanic` models
the panic of the `.unwrap()` on the guarded `Option<Collection>` inside
`get`/`put`; it is proved unreachable. -/
inductive CacheError
  | connectError
  | decodeError
  | encodeError
  | unwrapPanic
  deriving DecidableEq

/-- `bson::to_document` on a `CacheEntry` (serde `Serialize` derive:
fields in declaration order). -/
def toDocument (e : CacheEntry) : Document :=
  [("key", .str e.key), ("cache", .bin e.cache)]

/-- `bson::from_document::<CacheEntry>` (serde `Deserialize` derive): the
document must have a string field `key` and a binary field `cache`; other
fields are ignored; a missing or wrongly-typed field is a decode error. -/
def fromDocument (d : Document) : Except CacheError CacheEntry :=
  match getField d "key", getField d "cache" with
  | some (.str k), some (.bin b) => .ok { key := k, cache := b }
  | _, _ => .error .decodeError

/-- Modelled from the spec: `CacheWrite` is the external binary serializer
("a binary serializer that yields bytes"); it buffers payload data and its
finalization "may itself fail (signals `EncodeError`) if the payload source
is incomplete or invalid", which the `complete` flag captures. -/
structure CacheWrite where
  data : List Nat
  complete : Bool
  deriving DecidableEq

/-- Modelled from the spec: `CacheWrite::finish` materializes the final
bytes of the self-describing blob; as a concrete self-describing format the
blob is its content length followed by the content.  Finalization fails with
an encode error when the payload source is incomplete. -/
def CacheWrite.finish (w : CacheWrite) : Except CacheError (List Nat) :=
  if w.complete then .ok (w.data.length :: w.data) else .error .encodeError

/-- Modelled from the spec: `CacheRead` is the external "byte-stream reader"
over a record's payload; it yields the payload bytes. -/
structure CacheRead where
  bytes : List Nat
  deriving DecidableEq

/-- Modelled from the spec: `CacheRead::from(Cursor::new(bytes))` parses the
self-describing blob; it fails (the `"failed to create new cursor"` error
site in `get`) when the bytes are not a well-formed blob, i.e. when they do
not consist of a length header followed by that many content bytes. -/
def CacheRead.fromCursor (bytes : List Nat) : Except CacheError CacheRead :=
  match bytes with
  | n :: rest => if rest.length = n then .ok ⟨n :: rest⟩ else .error .decodeError
  | [] => .error .decodeError

/-- The cache lookup result type (`enum Cache` restricted to the variants
this backend produces): a hit carrying a reader, or a miss. -/
inductive Cache
  | hit (reader : CacheRead)
  | miss
  deriving DecidableEq

/-- A MongoDB collection handle; the `id` distinguishes distinct handles
created by distinct `Client::with_uri_str` calls (object identity). -/
structure Collection where
  id : Nat
  deriving DecidableEq

/-- The sequential state a backend operation runs against: the contents of
the `RwLock<Option<Collection>>` slot, the documents stored in the MongoDB
collection, whether connection establishment would currently succeed
(environment), and a counter producing fresh handle identities. -/
structure World where
  slot : Option Collection
  db : List Document
  connectOk : Bool
  nextId : Nat
  deriving DecidableEq

/-- Modelled from the spec: the driver's `find_one(filter)` with filter
`{ "key": key }` returns "the first match found by the backend's own lookup
order"; the model uses insertion order. -/
def findOne (db : List Document) (key : String) : Option Document :=
  db.find? (fun d => getField d "key" = some (.str key))

/-- `MongoDBCache::get_collection`, sequential semantics: read the slot; if
empty, connect (which may fail, leaving everything unchanged), then swap the
fresh handle into the slot under the write lock; finally return a read guard
over the slot's contents. -/
def getCollectionGuard (w : World) : Except CacheError (Option Collection) × World :=
  match w.slot with
  | some _ => (.ok w.slot, w)
  | none =>
    if w.connectOk then
      let c : Collection := ⟨w.nextId⟩
      let w' : World := { w with slot := some c, nextId := w.nextId + 1 }
      (.ok w'.slot, w')
    else
      (.error .connectError, w)

/-- `MongoDBCache::get`: acquire the collection guard, unwrap it, run
`find_one { key }`; a matching document is deserialized into a `CacheEntry`
and wrapped into a reader (`Hit`); no match is a `Miss`. -/
def MongoDBCache.get (key : String) (w : World) : Except CacheError Cache × World :=
  match getCollectionGuard w with
  | (.error e, w') => (.error e, w')
  | (.ok none, w') => (.error .unwrapPanic, w')
  | (.ok (some _), w') =>
    match findOne w'.db key with
    | some document =>
      match fromDocument document with
      | .error e => (.error e, w')
      | .ok entry =>
        match CacheRead.fromCursor entry.cache.bytes with
        | .error e => (.error e, w')
        | .ok reader => (.ok (.hit reader), w')
    | none => (.ok .miss, w')

/-- The observable events of one `put` run, in execution order: the
wall-clock timer start (`Instant::now()`), the payload finalization
(`entry.finish()`), the serialization (`bson::to_document`), the connection
acquisition (`get_collection().await`), the insert round-trip
(`insert_one(doc, None).await`), and the timer stop (`start.elapsed()`). -/
inductive PutEvent
  | timerStart
  | finishPayload
  | serialize
  | acquireConnection
  | insertRecord
  | timerStop
  deriving DecidableEq

/-- `MongoDBCache::put`, instrumented with its event trace: the timer starts
when `put` is entered; the async body then finalizes the payload, serializes
the `CacheEntry` into a document, acquires the collection (unwrapping the
guard), issues a single `insert_one`, and only then reads the elapsed
time. -/
def putT (key : String) (entry : CacheWrite) (w : World) :
    (Except CacheError Unit × World) × List PutEvent :=
  let tr0 : List PutEvent := [.timerStart]
  match entry.finish with
  | .error e => ((.error e, w), tr0 ++ [.finishPayload])
  | .ok bytes =>
    let tr1 := tr0 ++ [.finishPayload]
    let e : CacheEntry := { key := key, cache := { subtype := .generic, bytes := bytes } }
    let doc := toDocument e
    let tr2 := tr1 ++ [.serialize]
    match getCollectionGuard w with
    | (.error er, w') => ((.error er, w'), tr2 ++ [.acquireConnection])
    | (.ok none, w') => ((.error .unwrapPanic, w'), tr2 ++ [.acquireConnection])
    | (.ok (some _), w') =>
      let tr3 := tr2 ++ [.acquireConnection]
      let w'' : World := { w' with db := w'.db ++ [doc] }
      ((.ok (), w''), tr3 ++ [.insertRecord, .timerStop])

/-- `MongoDBCache::put`, result and state only. -/
def MongoDBCache.put (key : String) (entry : CacheWrite) (w : World) :
    Except CacheError Unit × World :=
  (putT key entry w).1

/-- `f_ok(x)`: an immediately ready successful future (from the repository's
`errors` module). -/
def f_ok {α : Type} (a : α) : Except CacheError α := .ok a

/-- `MongoDBCache::current_size`: always `f_ok(None)`. -/
def MongoDBCache.currentSize (_ : World) : Except CacheError (Option Nat) :=
  f_ok none

/-- `MongoDBCache::max_size`: always `f_ok(None)`. -/
def MongoDBCache.maxSize (_ : World) : Except CacheError (Option Nat) :=
  f_ok none

/-! ### Interleaving model of `get_collection` for two concurrent callers

Each caller executes the body of `get_collection` as a sequence of atomic
steps; each critical section (a region executed while holding the lock) is
one step, and the network-bound connect runs outside both locks:

* `readCheck`: `self.collection.read().unwrap().is_none()` — one read-locked
  check of the slot;
* `connect`: `Client::with_uri_str(...).await ... .collection(...)` — builds
  a fresh handle (here: connects always succeed and yield a fresh identity);
* `writeSwap`: `self.collection.write()` + `mem::swap` — unconditionally
  overwrites the slot with this caller's handle (the source has no re-check
  of the slot after taking the write lock);
* `finalRead`: `Ok(self.collection.read().unwrap())` — the returned guard;
  the caller observes whatever the slot holds at this moment.
-/

namespace Conc

/-- Program counter of one caller inside `get_collection`. -/
inductive Pc
  | readCheck
  | connect
  | writeSwap
  | finalRead
  | done
  deriving DecidableEq

/-- One caller: where it is in the body, the handle it created (if it took
the connect path), and the slot contents it observed on its final read. -/
structure Caller where
  pc : Pc
  conn : Option Nat
  obs : Option Nat
  deriving DecidableEq

/-- Shared state for two callers `a` and `b` racing through
`get_collection` on a fresh backend: the lock-protected slot, a fresh-handle
counter, and instrumentation counting write-lock swaps (`writes`) and swaps
that overwrote an already-populated slot (`overwrites`). -/
structure ConcState where
  slot : Option Nat
  nextId : Nat
  writes : Nat
  overwrites : Nat
  a : Caller
  b : Caller
  deriving DecidableEq

/-- Result of one atomic step of one caller. -/
structure StepOut where
  caller : Caller
  slot : Option Nat
  nextId : Nat
  wrote : Bool
  overwrote : Bool
  deriving DecidableEq

/-- One atomic step of a single caller against the shared slot. -/
def stepOne (slot : Option Nat) (nextId : Nat) (c : Caller) : StepOut :=
  match c.pc with
  | .readCheck =>
    match slot with
    | some _ => ⟨{ c with pc := .finalRead }, slot, nextId, false, false⟩
    | none => ⟨{ c with pc := .connect }, slot, nextId, false, false⟩
  | .connect => ⟨{ c with pc := .writeSwap, conn := some nextId }, slot, nextId + 1, false, false⟩
  | .writeSwap => ⟨{ c with pc := .finalRead }, c.conn, nextId, true, slot.isSome⟩
  | .finalRead => ⟨{ c with pc := .done, obs := slot }, slot, nextId, false, false⟩
  | .done => ⟨c, slot, nextId, false, false⟩

/-- Schedule one step of caller `a` (when `isA`) or caller `b`. -/
def stepCaller (s : ConcState) (isA : Bool) : ConcState :=
  if isA then
    let o := stepOne s.slot s.nextId s.a
    { slot := o.slot, nextId := o.nextId,
      writes := s.writes + (if o.wrote then 1 else 0),
      overwrites := s.overwrites + (if o.overwrote then 1 else 0),
      a := o.caller, b := s.b }
  else
    let o := stepOne s.slot s.nextId s.b
    { slot := o.slot, nextId := o.nextId,
      writes := s.writes + (if o.wrote then 1 else 0),
      overwrites := s.overwrites + (if o.overwrote then 1 else 0),
      a := s.a, b := o.caller }

/-- Two callers at the start of `get_collection` on a fresh backend: the
slot is empty and nobody has connected or observed anything. -/
def init : ConcState :=
  { slot := none, nextId := 0, writes := 0, overwrites := 0,
    a := ⟨.readCheck, none, none⟩, b := ⟨.readCheck, none, none⟩ }

/-- Run a schedule (a list of caller choices) from the fresh state. -/
def run (sched : List Bool) : ConcState :=
  sched.foldl stepCaller init

/-- The inductive invariant for one caller: at `writeSwap` it has a handle
to swap in; at `finalRead` and beyond the slot is populated; a finished
caller observed a populated slot. -/
def CallerInv (slot : Option Nat) (c : Caller) : Prop :=
  (c.pc = .writeSwap → c.conn.isSome) ∧
  (c.pc = .finalRead → slot.isSome) ∧
  (c.pc = .done → c.obs.isSome ∧ slot.isSome)

/-- The two-caller invariant. -/
def Inv (s : ConcState) : Prop :=
  CallerInv s.slot s.a ∧ CallerInv s.slot s.b

theorem stepOne_conn_isSome (slot : Option Nat) (nextId : Nat) (c : Caller)
    (h : CallerInv slot c) : (stepOne slot nextId c).slot.isSome = true ∨
      (stepOne slot nextId c).slot = slot := by
  rcases c with ⟨pc, conn, obs⟩
  cases pc <;> simp [stepOne]
  case readCheck => cases slot <;> simp
  case writeSwap =>
    left
    exact h.1 rfl

theorem stepOne_preserves_self (slot : Option Nat) (nextId : Nat) (c : Caller)
    (h : CallerInv slot c) :
    CallerInv (stepOne slot nextId c).slot (stepOne slot nextId c).caller := by
  rcases c with ⟨pc, conn, obs⟩
  obtain ⟨h1, h2, h3⟩ := h
  cases pc
  case readCheck =>
    cases hs : slot <;> simp_all [stepOne, CallerInv]
  case connect => simp_all [stepOne, CallerInv]
  case writeSwap =>
    simp_all [stepOne, CallerInv]
  case finalRead =>
    simp_all [stepOne, CallerInv]
  case done => simp_all [stepOne, CallerInv]

theorem stepOne_preserves_other (slot : Option Nat) (nextId : Nat) (c other : Caller)
    (hc : CallerInv slot c) (hother : CallerInv slot other) :
    CallerInv (stepOne slot nextId c).slot other := by
  rcases stepOne_conn_isSome slot nextId c hc with h | h
  · obtain ⟨o1, o2, o3⟩ := hother
    exact ⟨o1, fun hp => h, fun hp => ⟨(o3 hp).1, h⟩⟩
  · rw [h]; exact hother

theorem inv_step (s : ConcState) (x : Bool) (h : Inv s) : Inv (stepCaller s x) := by
  obtain ⟨ha, hb⟩ := h
  cases x
  · constructor
    · exact stepOne_preserves_other s.slot s.nextId s.b s.a hb ha
    · exact stepOne_preserves_self s.slot s.nextId s.b hb
  · constructor
    · exact stepOne_preserves_self s.slot s.nextId s.a ha
    · exact stepOne_preserves_other s.slot s.nextId s.a s.b ha hb

theorem inv_run_aux (sched : List Bool) (s : ConcState) (h : Inv s) :
    Inv (sched.foldl stepCaller s) := by
  induction sched generalizing s with
  | nil => exact h
  | cons x rest ih => exact ih (stepCaller s x) (inv_step s x h)

theorem inv_init : Inv init := by
  refine ⟨⟨?_, ?_, ?_⟩, ⟨?_, ?_, ?_⟩⟩ <;> simp [init, CallerInv]

theorem inv_run (sched : List Bool) : Inv (run sched) :=
  inv_run_aux sched init inv_init

end Conc

/-! ### Pointer-level model of `#[derive(Clone)]` on `MongoDBCache`

The struct holds three `String`s and an `Arc<RwLock<Option<Collection>>>`.
Cloning clones the strings (equal copies) and the `Arc` (a second pointer to
the same slot).  The slot is an address into a shared store of slots. -/

namespace Ptr

/-- The backend struct: configuration strings plus the address of its
`Arc`-shared connection slot. -/
structure MongoDBCache where
  url : String
  database_name : String
  collection_name : String
  collection : Nat
  deriving DecidableEq

/-- The shared store backing all `Arc<RwLock<Option<Collection>>>` slots,
indexed by address. -/
structure Store where
  slots : List (Option Collection)
  deriving DecidableEq

/-- `MongoDBCache::new`: copies the three configuration strings and
allocates a fresh slot holding `None`. -/
def MongoDBCache.new (url database_name collection_name : String) (st : Store) :
    MongoDBCache × Store :=
  ({ url := url, database_name := database_name, collection_name := collection_name,
     collection := st.slots.length },
   { slots := st.slots ++ [none] })

/-- `#[derive(Clone)]`: strings are cloned to equal copies and the `Arc` is
cloned to a pointer to the same slot, so the clone is field-for-field the
same record, sharing the `collection` address. -/
def MongoDBCache.clone (c : MongoDBCache) : MongoDBCache :=
  { url := c.url, database_name := c.database_name,
    collection_name := c.collection_name, collection := c.collection }

/-- Read a backend's connection slot through its address. -/
def readSlot (st : Store) (c : MongoDBCache) : Option (Option Collection) :=
  st.slots[c.collection]?

/-- Establishing a connection through a backend handle: write the handle's
slot (the write-locked swap in `get_collection`). -/
def establish (st : Store) (c : MongoDBCache) (conn : Collection) : Store :=
  { slots := st.slots.set c.collection (some conn) }

end Ptr

/-- The records stored for a key: the documents whose `key` field matches. -/
def recordsFor (db : List Document) (key : String) : List Document :=
  db.filter (fun d => getField d "key" = some (.str key))

/-! ### Helper lemmas about the sequential model -/

theorem guard_eq (w : World) :
    (getCollectionGuard w = (.error .connectError, w) ∧ w.slot = none ∧ w.connectOk = false) ∨
    (∃ c w2, getCollectionGuard w = (.ok (some c), w2) ∧ w2.slot = some c ∧
      w2.db = w.db ∧ w2.connectOk = w.connectOk) := by
  rcases hs : w.slot with _ | c
  · by_cases hc : w.connectOk = true
    · right
      refine ⟨⟨w.nextId⟩, { w with slot := some ⟨w.nextId⟩, nextId := w.nextId + 1 },
        ?_, rfl, rfl, rfl⟩
      simp [getCollectionGuard, hs, hc]
    · left
      simp only [Bool.not_eq_true] at hc
      simp [getCollectionGuard, hs, hc]
  · right
    refine ⟨c, w, ?_, hs, rfl, rfl⟩
    simp [getCollectionGuard, hs]

theorem fromDocument_cases (d : Document) :
    fromDocument d = .error .decodeError ∨ ∃ k b, fromDocument d = .ok ⟨k, b⟩ := by
  unfold fromDocument
  cases h1 : getField d "key" with
  | none => simp
  | some v1 =>
    cases v1 with
    | bin b => simp
    | str s =>
      cases h2 : getField d "cache" with
      | none => simp
      | some v2 =>
        cases v2 with
        | str s2 => simp
        | bin b => exact Or.inr ⟨s, b, rfl⟩

theorem fromCursor_cases (bytes : List Nat) :
    CacheRead.fromCursor bytes = .error .decodeError ∨
      ∃ r, CacheRead.fromCursor bytes = .ok r := by
  unfold CacheRead.fromCursor
  cases bytes with
  | nil => simp
  | cons n rest =>
    by_cases h : rest.length = n
    · exact Or.inr ⟨⟨n :: rest⟩, by simp [h]⟩
    · simp [h]

theorem finish_ok (cw : CacheWrite) (payload : List Nat) (h : cw.finish = .ok payload) :
    cw.complete = true ∧ payload = cw.data.length :: cw.data := by
  by_cases hc : cw.complete = true
  · refine ⟨hc, ?_⟩
    simp [CacheWrite.finish, hc] at h
    exact h.symm
  · simp only [Bool.not_eq_true] at hc
    simp [CacheWrite.finish, hc] at h

theorem finish_cases (cw : CacheWrite) :
    cw.finish = .error .encodeError ∨ cw.finish = .ok (cw.data.length :: cw.data) := by
  by_cases hc : cw.complete = true
  · exact Or.inr (by simp [CacheWrite.finish, hc])
  · simp only [Bool.not_eq_true] at hc
    exact Or.inl (by simp [CacheWrite.finish, hc])

theorem fromCursor_finish (cw : CacheWrite) (payload : List Nat)
    (h : cw.finish = .ok payload) :
    CacheRead.fromCursor payload = .ok ⟨payload⟩ := by
  obtain ⟨_, rfl⟩ := finish_ok cw payload h
  simp [CacheRead.fromCursor]

theorem toDocument_key (e : CacheEntry) : getField (toDocument e) "key" = some (.str e.key) := by
  simp [toDocument, getField, List.find?]

theorem fromDocument_toDocument (e : CacheEntry) : fromDocument (toDocument e) = .ok e := by
  simp [fromDocument, toDocument, getField, List.find?]

theorem findOne_append_fresh (db : List Document) (key : String) (d : Document)
    (hfresh : findOne db key = none) (hd : getField d "key" = some (.str key)) :
    findOne (db ++ [d]) key = some d := by
  unfold findOne at *
  rw [List.find?_append, hfresh]
  simp [List.find?, hd]

theorem guard_slot_some (w : World) (c : Collection) :
    getCollectionGuard { w with slot := some c } = (.ok (some c), { w with slot := some c }) := by
  simp [getCollectionGuard]

theorem get_world (key : String) (w : World) :
    (MongoDBCache.get key w).2 = (getCollectionGuard w).2 := by
  rcases hg : getCollectionGuard w with ⟨r, w'⟩
  rcases r with e | co
  · simp [MongoDBCache.get, hg]
  · rcases co with _ | c
    · simp [MongoDBCache.get, hg]
    · simp only [MongoDBCache.get, hg]
      rcases findOne w'.db key with _ | d
      · simp
      · rcases fromDocument_cases d with hd | ⟨k, b, hd⟩
        · simp [hd]
        · simp only [hd]
          rcases fromCursor_cases b.bytes with hc | ⟨r2, hc⟩ <;> simp [hc]

theorem put_slot (key : String) (e : CacheWrite) (w : World) :
    (MongoDBCache.put key e w).2.slot = w.slot ∨
      (MongoDBCache.put key e w).2.slot = (getCollectionGuard w).2.slot := by
  rcases finish_cases e with hf | hf
  · left
    simp [MongoDBCache.put, putT, hf]
  · rcases hg : getCollectionGuard w with ⟨r, w'⟩
    rcases r with er | co
    · right; simp [MongoDBCache.put, putT, hf, hg]
    · rcases co with _ | c
      · right; simp [MongoDBCache.put, putT, hf, hg]
      · right; simp [MongoDBCache.put, putT, hf, hg]

theorem get_no_panic (key : String) (w : World) :
    (MongoDBCache.get key w).1 ≠ .error .unwrapPanic := by
  rcases guard_eq w with ⟨hg, _, _⟩ | ⟨c, w2, hg, _, _, _⟩
  · simp [MongoDBCache.get, hg]
  · simp only [MongoDBCache.get, hg]
    rcases findOne w2.db key with _ | d
    · simp
    · rcases fromDocument_cases d with hd | ⟨k, b, hd⟩
      · simp [hd]
      · simp only [hd]
        rcases fromCursor_cases b.bytes with hc | ⟨r, hc⟩ <;> simp [hc]

theorem put_no_panic (key : String) (e : CacheWrite) (w : World) :
    (MongoDBCache.put key e w).1 ≠ .error .unwrapPanic := by
  unfold MongoDBCache.put putT
  rcases finish_cases e with hf | hf <;> rw [hf]
  · simp
  · rcases guard_eq w with ⟨hg, _, _⟩ | ⟨c, w2, hg, _, _, _⟩ <;> simp [hg]

theorem put_ok_spec (w : World) (key : String) (cw : CacheWrite) (payload : List Nat)
    (hconn : w.slot.isSome = true ∨ w.connectOk = true)
    (hfin : cw.finish = .ok payload) :
    (MongoDBCache.put key cw w).1 = .ok () ∧
    (MongoDBCache.put key cw w).2.db =
      w.db ++ [toDocument ⟨key, ⟨.generic, payload⟩⟩] ∧
    (MongoDBCache.put key cw w).2.slot.isSome = true ∧
    (putT key cw w).2 =
      [.timerStart, .finishPayload, .serialize, .acquireConnection, .insertRecord,
        .timerStop] := by
  rcases guard_eq w with ⟨_, hs, hc⟩ | ⟨c, w2, hg, hslot, hdb, _⟩
  · rcases hconn with h | h
    · rw [hs] at h; simp at h
    · rw [h] at hc; cases hc
  · refine ⟨?_, ?_, ?_, ?_⟩ <;>
      simp [MongoDBCache.put, putT, hfin, hg, hdb, hslot]

theorem findOne_append_two (db : List Document) (key : String) (d1 d2 : Document)
    (hfresh : findOne db key = none) (hd1 : getField d1 "key" = some (.str key)) :
    findOne (db ++ [d1, d2]) key = some d1 := by
  unfold findOne at *
  rw [List.find?_append, hfresh]
  simp [List.find?, hd1]

theorem recordsFor_nil_of_findOne_none (db : List Document) (key : String)
    (h : findOne db key = none) : recordsFor db key = [] := by
  unfold findOne at h
  unfold recordsFor
  rw [List.find?_eq_none] at h
  rw [List.filter_eq_nil_iff]
  exact h

/-! ### Claim theorems -/

/-- Claim C3: if connection establishment fails during acquisition, the call
returns a connection error and the shared connection state is left unchanged
(still empty); the state is mutated only on a successful establishment, so a
subsequent call (here: one made when connectivity is back) attempts the
connection afresh and succeeds, with no residual poisoned state. -/
theorem connect_failure_leaves_state_unchanged (w : World) (key : String) (cw : CacheWrite)
    (h1 : w.slot = none) (h2 : w.connectOk = false) :
    getCollectionGuard w = (.error .connectError, w) ∧
    MongoDBCache.get key w = (.error .connectError, w) ∧
    ((MongoDBCache.put key cw w).1 = .error .connectError ∨
      (MongoDBCache.put key cw w).1 = .error .encodeError) ∧
    (MongoDBCache.put key cw w).2 = w ∧
    (getCollectionGuard { w with connectOk := true }).1 = .ok (some ⟨w.nextId⟩) ∧
    (getCollectionGuard { w with connectOk := true }).2.slot = some ⟨w.nextId⟩ := by
  have hg : getCollectionGuard w = (.error .connectError, w) := by
    simp [getCollectionGuard, h1, h2]
  refine ⟨hg, ?_, ?_, ?_, ?_, ?_⟩
  · simp [MongoDBCache.get, hg]
  · rcases finish_cases cw with hf | hf
    · right; simp [MongoDBCache.put, putT, hf]
    · left; simp [MongoDBCache.put, putT, hf, hg]
  · rcases finish_cases cw with hf | hf
    · simp [MongoDBCache.put, putT, hf]
    · simp [MongoDBCache.put, putT, hf, hg]
  · simp [getCollectionGuard, h1]
  · simp [getCollectionGuard, h1]

/-- Witness for C3 at a concrete unconnectable fresh world. -/
theorem connect_failure_leaves_state_unchanged_witness :
    (⟨none, [], false, 0⟩ : World).slot = none ∧
    (⟨none, [], false, 0⟩ : World).connectOk = false ∧
    getCollectionGuard ⟨none, [], false, 0⟩ = (.error .connectError, ⟨none, [], false, 0⟩) ∧
    MongoDBCache.get "k" ⟨none, [], false, 0⟩ = (.error .connectError, ⟨none, [], false, 0⟩) := by
  have h := connect_failure_leaves_state_unchanged ⟨none, [], false, 0⟩ "k" ⟨[1], true⟩ rfl rfl
  exact ⟨rfl, rfl, h.1, h.2.1⟩

/-- Claim C4: for every key with no matching record in the backend's
collection, `get(key)` completes successfully with `Miss` (given that a
connection is available or establishable). -/
theorem get_never_inserted_is_miss (w : World) (key : String)
    (hconn : w.slot.isSome = true ∨ w.connectOk = true)
    (hfresh : findOne w.db key = none) :
    (MongoDBCache.get key w).1 = .ok .miss := by
  rcases guard_eq w with ⟨_, hs, hc⟩ | ⟨c, w2, hg, _, hdb, _⟩
  · rcases hconn with h | h
    · rw [hs] at h; simp at h
    · rw [h] at hc; cases hc
  · have hfind : findOne w2.db key = none := by rw [hdb]; exact hfresh
    simp [MongoDBCache.get, hg, hfind]

/-- Witness for C4 at a fresh connectable world and a never-inserted key. -/
theorem get_never_inserted_is_miss_witness :
    ((⟨none, [], true, 0⟩ : World).slot.isSome = true ∨
      (⟨none, [], true, 0⟩ : World).connectOk = true) ∧
    findOne (⟨none, [], true, 0⟩ : World).db "k1" = none ∧
    (MongoDBCache.get "k1" ⟨none, [], true, 0⟩).1 = .ok .miss :=
  ⟨Or.inr rfl, rfl, get_never_inserted_is_miss ⟨none, [], true, 0⟩ "k1" (Or.inr rfl) rfl⟩

/-- Claim C5: when `get(key)` finds a matching record whose stored document
cannot be parsed into the expected record shape, it fails with a decode
error; whenever a matching record exists the result is never `Miss`, so a
decode failure is never reported as `Miss`. -/
theorem get_decode_failure_never_miss (w : World) (key : String) (d : Document)
    (hconn : w.slot.isSome = true ∨ w.connectOk = true)
    (hfind : findOne w.db key = some d) :
    (MongoDBCache.get key w).1 ≠ .ok .miss ∧
    (fromDocument d = .error .decodeError →
      (MongoDBCache.get key w).1 = .error .decodeError) := by
  rcases guard_eq w with ⟨_, hs, hc⟩ | ⟨c, w2, hg, _, hdb, _⟩
  · rcases hconn with h | h
    · rw [hs] at h; simp at h
    · rw [h] at hc; cases hc
  · have hfind2 : findOne w2.db key = some d := by rw [hdb]; exact hfind
    constructor
    · simp only [MongoDBCache.get, hg, hfind2]
      rcases fromDocument_cases d with hd | ⟨k, b, hd⟩
      · simp [hd]
      · simp only [hd]
        rcases fromCursor_cases b.bytes with hcur | ⟨r, hcur⟩ <;> simp [hcur]
    · intro hbad
      simp [MongoDBCache.get, hg, hfind2, hbad]

/-- Witness for C5 at a world holding one corrupt record (its `cache` field
is missing) under the matching key. -/
theorem get_decode_failure_never_miss_witness :
    ((⟨none, [[("key", .str "k1")]], true, 0⟩ : World).slot.isSome = true ∨
      (⟨none, [[("key", .str "k1")]], true, 0⟩ : World).connectOk = true) ∧
    findOne (⟨none, [[("key", .str "k1")]], true, 0⟩ : World).db "k1" =
      some [("key", .str "k1")] ∧
    fromDocument [("key", .str "k1")] = .error .decodeError ∧
    (MongoDBCache.get "k1" ⟨none, [[("key", .str "k1")]], true, 0⟩).1 = .error .decodeError ∧
    (MongoDBCache.get "k1" ⟨none, [[("key", .str "k1")]], true, 0⟩).1 ≠ .ok .miss := by
  have h := get_decode_failure_never_miss ⟨none, [[("key", .str "k1")]], true, 0⟩ "k1"
    [("key", .str "k1")] (Or.inr rfl) rfl
  exact ⟨Or.inr rfl, rfl, rfl, h.2 rfl, h.1⟩

/-- Claim C8: `current_size()` and `max_size()` always resolve successfully
to `None`, for every backend state, regardless of how many `put` operations
have previously completed. -/
theorem current_and_max_size_always_none (w : World) :
    MongoDBCache.currentSize w = f_ok none ∧ MongoDBCache.maxSize w = f_ok none :=
  ⟨rfl, rfl⟩

/-- Claim C9: whenever `get_collection` succeeds, the guard it returns holds
`Some` collection and so does the slot; a slot holding `Some` is never
written back to `None` by `get_collection`, `get` or `put`; and consequently
the `.unwrap()` inside `get` and `put` never hits the `None` branch (the
modelled panic outcome `unwrapPanic` is unreachable). -/
theorem guard_some_and_unwrap_never_panics (w : World) (c : Collection) (key : String)
    (e : CacheWrite) :
    ((getCollectionGuard w).1 = .error .connectError ∨
      ∃ c0, (getCollectionGuard w).1 = .ok (some c0) ∧
        (getCollectionGuard w).2.slot = some c0) ∧
    (getCollectionGuard { w with slot := some c }).2.slot = some c ∧
    (MongoDBCache.get key { w with slot := some c }).2.slot = some c ∧
    (MongoDBCache.put key e { w with slot := some c }).2.slot = some c ∧
    (MongoDBCache.get key w).1 ≠ .error .unwrapPanic ∧
    (MongoDBCache.put key e w).1 ≠ .error .unwrapPanic := by
  refine ⟨?_, ?_, ?_, ?_, get_no_panic key w, put_no_panic key e w⟩
  · rcases guard_eq w with ⟨hg, _, _⟩ | ⟨c0, w2, hg, hslot, _, _⟩
    · left; simp [hg]
    · right; exact ⟨c0, by simp [hg], by simp [hg, hslot]⟩
  · simp [guard_slot_some]
  · rw [get_world, guard_slot_some]
  · rcases put_slot key e { w with slot := some c } with h | h
    · rw [h]
    · rw [h, guard_slot_some]

/-- Claim C2: for every key and finalized payload, `put(key, payload)`
followed by `get(key)` on the same backend returns `Hit`, and the reader in
that `Hit` yields exactly the payload's bytes (on a backend holding no prior
record for that key, with a connection available or establishable). -/
theorem put_then_get_roundtrip (w : World) (key : String) (cw : CacheWrite)
    (payload : List Nat)
    (hconn : w.slot.isSome = true ∨ w.connectOk = true)
    (hfin : cw.finish = .ok payload)
    (hfresh : findOne w.db key = none) :
    ∃ r : CacheRead,
      (MongoDBCache.get key (MongoDBCache.put key cw w).2).1 = .ok (.hit r) ∧
      r.bytes = payload := by
  obtain ⟨_, hdb, hslot, _⟩ := put_ok_spec w key cw payload hconn hfin
  rcases guard_eq (MongoDBCache.put key cw w).2 with ⟨_, hs, _⟩ | ⟨c, w2, hg, _, hdb2, _⟩
  · rw [hs] at hslot; simp at hslot
  · have hfind : findOne w2.db key = some (toDocument ⟨key, ⟨.generic, payload⟩⟩) := by
      rw [hdb2, hdb]
      exact findOne_append_fresh w.db key _ hfresh (toDocument_key _)
    refine ⟨⟨payload⟩, ?_, rfl⟩
    have h1 : fromDocument (toDocument ⟨key, ⟨.generic, payload⟩⟩) =
        .ok ⟨key, ⟨.generic, payload⟩⟩ := fromDocument_toDocument _
    have h2 : CacheRead.fromCursor payload = .ok ⟨payload⟩ := fromCursor_finish cw payload hfin
    simp [MongoDBCache.get, hg, hfind, h1, h2]

/-- Witness for C2: a fresh connectable backend, key `k1`, payload bytes
`[3, 1, 2, 3]` (the finalized blob of content `[1, 2, 3]`). -/
theorem put_then_get_roundtrip_witness :
    ((⟨none, [], true, 0⟩ : World).slot.isSome = true ∨
      (⟨none, [], true, 0⟩ : World).connectOk = true) ∧
    CacheWrite.finish ⟨[1, 2, 3], true⟩ = .ok [3, 1, 2, 3] ∧
    findOne (⟨none, [], true, 0⟩ : World).db "k1" = none ∧
    ∃ r : CacheRead,
      (MongoDBCache.get "k1"
          (MongoDBCache.put "k1" ⟨[1, 2, 3], true⟩ ⟨none, [], true, 0⟩).2).1 = .ok (.hit r) ∧
      r.bytes = [3, 1, 2, 3] :=
  ⟨Or.inr rfl, rfl, rfl,
    put_then_get_roundtrip ⟨none, [], true, 0⟩ "k1" ⟨[1, 2, 3], true⟩ [3, 1, 2, 3]
      (Or.inr rfl) rfl rfl⟩

/-- Claim C6: `put` always performs a plain insert of a new record, never an
update or upsert: after `put(key, p1)` then `put(key, p2)` (on a backend
with no prior record for the key), the stored collection is extended by
exactly the two new documents, exactly two records for the key exist, and a
subsequent `get(key)` returns `Hit` with exactly `p1`'s bytes or exactly
`p2`'s bytes, never a merge of both. -/
theorem put_put_two_records (w : World) (key : String) (cw1 cw2 : CacheWrite)
    (p1 p2 : List Nat)
    (hconn : w.slot.isSome = true ∨ w.connectOk = true)
    (hf1 : cw1.finish = .ok p1) (hf2 : cw2.finish = .ok p2)
    (hfresh : findOne w.db key = none) :
    (MongoDBCache.put key cw2 (MongoDBCache.put key cw1 w).2).2.db =
      w.db ++ [toDocument ⟨key, ⟨.generic, p1⟩⟩, toDocument ⟨key, ⟨.generic, p2⟩⟩] ∧
    (recordsFor (MongoDBCache.put key cw2 (MongoDBCache.put key cw1 w).2).2.db key).length =
      2 ∧
    ∃ r : CacheRead,
      (MongoDBCache.get key
          (MongoDBCache.put key cw2 (MongoDBCache.put key cw1 w).2).2).1 = .ok (.hit r) ∧
      (r.bytes = p1 ∨ r.bytes = p2) := by
  obtain ⟨_, h1db, h1slot, _⟩ := put_ok_spec w key cw1 p1 hconn hf1
  obtain ⟨_, h2db, h2slot, _⟩ :=
    put_ok_spec (MongoDBCache.put key cw1 w).2 key cw2 p2 (Or.inl h1slot) hf2
  have hdb : (MongoDBCache.put key cw2 (MongoDBCache.put key cw1 w).2).2.db =
      w.db ++ [toDocument ⟨key, ⟨.generic, p1⟩⟩, toDocument ⟨key, ⟨.generic, p2⟩⟩] := by
    rw [h2db, h1db]
    simp
  refine ⟨hdb, ?_, ?_⟩
  · rw [hdb]
    unfold recordsFor
    rw [List.filter_append]
    have hempty : recordsFor w.db key = [] := recordsFor_nil_of_findOne_none w.db key hfresh
    unfold recordsFor at hempty
    rw [hempty]
    simp [toDocument_key]
  · rcases guard_eq (MongoDBCache.put key cw2 (MongoDBCache.put key cw1 w).2).2 with
      ⟨_, hs, _⟩ | ⟨c, w2, hg, _, hdb2, _⟩
    · rw [hs] at h2slot; simp at h2slot
    · have hfind : findOne w2.db key = some (toDocument ⟨key, ⟨.generic, p1⟩⟩) := by
        rw [hdb2, hdb]
        exact findOne_append_two w.db key _ _ hfresh (toDocument_key _)
      have h1 : fromDocument (toDocument ⟨key, ⟨.generic, p1⟩⟩) =
          .ok ⟨key, ⟨.generic, p1⟩⟩ := fromDocument_toDocument _
      have h2 : CacheRead.fromCursor p1 = .ok ⟨p1⟩ := fromCursor_finish cw1 p1 hf1
      refine ⟨⟨p1⟩, ?_, Or.inl rfl⟩
      simp [MongoDBCache.get, hg, hfind, h1, h2]

/-- Witness for C6: fresh backend, key `k1`, two distinct payloads. -/
theorem put_put_two_records_witness :
    ((⟨none, [], true, 0⟩ : World).slot.isSome = true ∨
      (⟨none, [], true, 0⟩ : World).connectOk = true) ∧
    CacheWrite.finish ⟨[1], true⟩ = .ok [1, 1] ∧
    CacheWrite.finish ⟨[2, 2], true⟩ = .ok [2, 2, 2] ∧
    findOne (⟨none, [], true, 0⟩ : World).db "k1" = none ∧
    (recordsFor
        (MongoDBCache.put "k1" ⟨[2, 2], true⟩
          (MongoDBCache.put "k1" ⟨[1], true⟩ ⟨none, [], true, 0⟩).2).2.db "k1").length = 2 ∧
    ∃ r : CacheRead,
      (MongoDBCache.get "k1"
          (MongoDBCache.put "k1" ⟨[2, 2], true⟩
            (MongoDBCache.put "k1" ⟨[1], true⟩ ⟨none, [], true, 0⟩).2).2).1 = .ok (.hit r) ∧
      (r.bytes = [1, 1] ∨ r.bytes = [2, 2, 2]) := by
  have h := put_put_two_records ⟨none, [], true, 0⟩ "k1" ⟨[1], true⟩ ⟨[2, 2], true⟩
    [1, 1] [2, 2, 2] (Or.inr rfl) rfl rfl rfl
  exact ⟨Or.inr rfl, rfl, rfl, rfl, h.2.1, h.2.2⟩

/-- Claim C7 counterexample: on a concrete successful `put` run, the event
trace places serialization strictly before connection acquisition, so the
claimed step order (timer start, acquire connection, serialize, insert,
timer stop) is false for the code: acquisition does not precede
serialization. -/
theorem put_trace_counterexample :
    (putT "k1" ⟨[1, 2, 3], true⟩ ⟨none, [], true, 0⟩).2 =
      [.timerStart, .finishPayload, .serialize, .acquireConnection, .insertRecord,
        .timerStop] ∧
    ¬ ((putT "k1" ⟨[1, 2, 3], true⟩ ⟨none, [], true, 0⟩).2.indexOf .acquireConnection <
        (putT "k1" ⟨[1, 2, 3], true⟩ ⟨none, [], true, 0⟩).2.indexOf .serialize) := by
  constructor
  · rfl
  · decide

/-- Claim C7 amended: `put` performs its steps in the order: start the
wall-clock timer, finalize and serialize `{key, finalized-bytes}` into the
backend record shape, acquire the connection, issue a single insert, and
stop the timer only after the insert completes; the returned duration
therefore spans serialization, connection acquisition, and the insert. -/
theorem put_trace_order (w : World) (key : String) (cw : CacheWrite) (payload : List Nat)
    (hconn : w.slot.isSome = true ∨ w.connectOk = true)
    (hfin : cw.finish = .ok payload) :
    (putT key cw w).2 =
      [.timerStart, .finishPayload, .serialize, .acquireConnection, .insertRecord,
        .timerStop] ∧
    (putT key cw w).2.count .insertRecord = 1 ∧
    (putT key cw w).2.head? = some .timerStart ∧
    (putT key cw w).2.getLast? = some .timerStop := by
  obtain ⟨_, _, _, htr⟩ := put_ok_spec w key cw payload hconn hfin
  rw [htr]
  refine ⟨rfl, ?_, rfl, rfl⟩
  decide

/-- Witness for the amended C7 at a concrete fresh connectable world. -/
theorem put_trace_order_witness :
    ((⟨none, [], true, 0⟩ : World).slot.isSome = true ∨
      (⟨none, [], true, 0⟩ : World).connectOk = true) ∧
    CacheWrite.finish ⟨[5], true⟩ = .ok [1, 5] ∧
    (putT "k2" ⟨[5], true⟩ ⟨none, [], true, 0⟩).2 =
      [.timerStart, .finishPayload, .serialize, .acquireConnection, .insertRecord,
        .timerStop] :=
  ⟨Or.inr rfl, rfl,
    (put_trace_order ⟨none, [], true, 0⟩ "k2" ⟨[5], true⟩ [1, 5] (Or.inr rfl) rfl).1⟩

/-- Claim C1 counterexample: under the interleaving in which both callers
pass the read-locked emptiness check before either connects, each caller
connects and swaps its own connection into the slot with no re-check under
the write lock: both callers overwrite the slot (two write-lock swaps, the
second overwriting an already-populated slot), and the two callers observe
different connection identities on their final reads, refuting both "two
racing callers never both overwrite the slot" and "all concurrent
first-time acquire callers observe the same single Ready connection
identity". -/
theorem race_counterexample :
    (Conc.run [true, false, true, true, true, false, false, false]).a.pc = .done ∧
    (Conc.run [true, false, true, true, true, false, false, false]).b.pc = .done ∧
    (Conc.run [true, false, true, true, true, false, false, false]).writes = 2 ∧
    (Conc.run [true, false, true, true, true, false, false, false]).overwrites = 1 ∧
    (Conc.run [true, false, true, true, true, false, false, false]).a.obs = some 0 ∧
    (Conc.run [true, false, true, true, true, false, false, false]).b.obs = some 1 ∧
    (Conc.run [true, false, true, true, true, false, false, false]).a.obs ≠
      (Conc.run [true, false, true, true, true, false, false, false]).b.obs := by
  decide

/-- Claim C1 amended: on first-time acquisition the caller that finds the
slot empty under the read lock releases it, connects, and then
unconditionally swaps its connection into the slot under the write lock
without re-checking, so racing callers may each overwrite the slot and may
observe different connection identities; nevertheless, under every
interleaving in which both callers complete, each caller observes some
established (`Some`) connection and the slot ends populated — it is never
left empty or partially swapped. -/
theorem race_amended (sched : List Bool)
    (ha : (Conc.run sched).a.pc = .done)
    (hb : (Conc.run sched).b.pc = .done) :
    (Conc.run sched).a.obs.isSome = true ∧
    (Conc.run sched).b.obs.isSome = true ∧
    (Conc.run sched).slot.isSome = true := by
  have h := Conc.inv_run sched
  exact ⟨(h.1.2.2 ha).1, (h.2.2.2 hb).1, (h.1.2.2 ha).2⟩

/-- Witness for the amended C1 at a schedule that completes both callers
(the first caller runs to completion, then the second). -/
theorem race_amended_witness :
    (Conc.run [true, true, true, true, false, false]).a.pc = .done ∧
    (Conc.run [true, true, true, true, false, false]).b.pc = .done ∧
    ((Conc.run [true, true, true, true, false, false]).a.obs.isSome = true ∧
      (Conc.run [true, true, true, true, false, false]).b.obs.isSome = true ∧
      (Conc.run [true, true, true, true, false, false]).slot.isSome = true) :=
  ⟨by decide, by decide,
    race_amended [true, true, true, true, false, false] (by decide) (by decide)⟩

theorem slots_concat_get {α : Type} (l : List α) (a : α) :
    (l ++ [a])[l.length]? = some a := by
  simp

theorem slots_concat_set_get {α : Type} (l : List α) (a b : α) :
    ((l ++ [a]).set l.length b)[l.length]? = some b := by
  induction l with
  | nil => rfl
  | cons x xs ih => simp [ih]

/-- Claim C10: cloning a backend instance shares the same connection slot
rather than copying it — the clone carries the same slot address, its slot
is the original's freshly-allocated empty slot, and a connection established
through either the clone or the original is observed as established through
the other — while the url, database name, and collection name are copied
unchanged. -/
theorem clone_shares_connection_slot (url dbn coll : String) (st : Ptr.Store)
    (conn : Collection) :
    (Ptr.MongoDBCache.new url dbn coll st).1.clone.url =
      (Ptr.MongoDBCache.new url dbn coll st).1.url ∧
    (Ptr.MongoDBCache.new url dbn coll st).1.clone.database_name =
      (Ptr.MongoDBCache.new url dbn coll st).1.database_name ∧
    (Ptr.MongoDBCache.new url dbn coll st).1.clone.collection_name =
      (Ptr.MongoDBCache.new url dbn coll st).1.collection_name ∧
    (Ptr.MongoDBCache.new url dbn coll st).1.clone.collection =
      (Ptr.MongoDBCache.new url dbn coll st).1.collection ∧
    Ptr.readSlot (Ptr.MongoDBCache.new url dbn coll st).2
      (Ptr.MongoDBCache.new url dbn coll st).1.clone = some none ∧
    Ptr.readSlot
      (Ptr.establish (Ptr.MongoDBCache.new url dbn coll st).2
        (Ptr.MongoDBCache.new url dbn coll st).1.clone conn)
      (Ptr.MongoDBCache.new url dbn coll st).1 = some (some conn) ∧
    Ptr.readSlot
      (Ptr.establish (Ptr.MongoDBCache.new url dbn coll st).2
        (Ptr.MongoDBCache.new url dbn coll st).1 conn)
      (Ptr.MongoDBCache.new url dbn coll st).1.clone = some (some conn) := by
  refine ⟨rfl, rfl, rfl, rfl, ?_, ?_, ?_⟩
  · exact slots_concat_get st.slots none
  · exact slots_concat_set_get st.slots none (some conn)
  · exact slots_concat_set_get st.slots none (some conn)

end Sccache
